import Mathlib

/-!
Verification of the scryfall-mcp repository (a Deno/TypeScript MCP server)
against its natural-language specification.

The development is a shallow embedding of the relevant source files:
  - src/rate_limited_fetcher.ts  (RateLimitedFetcher)
  - src/cache.ts                 (card cache and similar-cards cache)
  - the ScryfallClient           (main_test.ts lines 169-351, scryfall_client.ts)
  - src/archidekt_client.ts      (ArchidektClient.getDeck)
  - src/server.ts                (ScryfallServer request handlers)

Conventions of the embedding:
  - Machine numbers (Date.now timestamps, epochMilliseconds, HTTP status
    codes, quantities) are modelled as Int or Nat.
  - Fallible operations return Except; a thrown JS exception that a catch
    block converts into an McpError is modelled as an Except.error value.
  - The outcome of one HTTP fetch (network failure, or a response carrying
    a status code and a JSON-parse outcome for its body) is the explicit
    input FetchOutcome of each client function, so the functions are pure.
  - JS truthiness of numbers and strings (0 and the empty string are falsy)
    is modelled explicitly where the source relies on it.
-/

/-! ### Error model (npm:@modelcontextprotocol/sdk ErrorCode, McpError) -/

inductive ErrCode where
  | invalidParams
  | internalError
  | methodNotFound
  deriving DecidableEq, Repr

structure McpErr where
  code : ErrCode
  message : String
  deriving DecidableEq, Repr

/-- The outcome of one call through the fetch transport: either the network
request itself fails (rejected promise), or a response arrives with an HTTP
status code and a body whose JSON parse either fails or yields a payload. -/
inductive FetchOutcome (α : Type) where
  | fetchError (msg : String)
  | response (status : Nat) (body : Except String α)

/-- Response.ok in the Fetch API: status in the 2xx range. -/
def responseOk (status : Nat) : Prop := 200 ≤ status ∧ status < 300

instance : DecidablePred responseOk := fun s =>
  inferInstanceAs (Decidable (200 ≤ s ∧ s < 300))

/-! ### JS helpers used by the source -/

/-- JS `v || d` for an optional number: undefined and 0 are falsy. -/
def jsOrInt (v : Option Int) (d : Int) : Int :=
  match v with
  | none => d
  | some x => if x = 0 then d else x

/-- JS `a || b` for two optional strings: undefined and "" are falsy. -/
def jsOrStr (a b : Option String) : Option String :=
  match a with
  | none => b
  | some s => if s = "" then b else some s

/-- JS `Array.prototype.slice(0, e)`: a negative end counts from the end of
the array, a nonnegative end is clamped to the length. -/
def jsSlice {α : Type} (l : List α) (e : Int) : List α :=
  if e < 0 then l.take ((l.length : Int) + e).toNat else l.take e.toNat

/-! ### Rate-limited fetcher (src/rate_limited_fetcher.ts) -/

/-- RATE_LIMIT_MS = 75 (src/rate_limited_fetcher.ts line 2). -/
def RATE_LIMIT_MS : Int := 75

/-- Dispatch time of one RateLimitedFetcher.fetch call that begins executing
at clock time start and reads observedLast from this.lastFetchTime
(src/rate_limited_fetcher.ts lines 9-14): if less than RATE_LIMIT_MS has
elapsed the caller is suspended for the remaining delta, then lastFetchTime
is set to the dispatch time and the request is sent. -/
def fetchDispatchTime (start observedLast : Int) : Int :=
  if start - observedLast < RATE_LIMIT_MS then
    start + (RATE_LIMIT_MS - (start - observedLast))
  else
    start

/-- State of one RateLimitedFetcher instance, together with a count of the
requests dispatched through it (the count is ghost state used to express
that a code path does not invoke the fetcher). -/
structure FetchLog where
  calls : Nat
  lastFetchTime : Int
  deriving DecidableEq, Repr

/-- One dispatch through the fetcher starting at clock time start: the
request goes out at fetchDispatchTime and lastFetchTime is updated to it. -/
def fetchStep (st : FetchLog) (start : Int) : FetchLog :=
  { calls := st.calls + 1, lastFetchTime := fetchDispatchTime start st.lastFetchTime }

/-- Two fetch calls through one fetcher instance, call 1 beginning at s1 and
call 2 at s2 with s1 ≤ s2, starting from lastFetchTime = L0.  lastFetchTime
is written only at the moment a call dispatches, so call 2 observes the
stale L0 when it starts while call 1 is still suspended (s2 before the
first dispatch), and the updated value d1 otherwise.  Returns the two
dispatch times. -/
def twoCallDispatches (L0 s1 s2 : Int) : Int × Int :=
  let d1 := fetchDispatchTime s1 L0
  let d2 := fetchDispatchTime s2 (if s2 < d1 then L0 else d1)
  (d1, d2)

/-! ### Card data model (src/cache.ts CardData, SimilarCardData) -/

structure ImageUris where
  small : Option String
  normal : Option String
  deriving DecidableEq, Repr

structure CardLegalities where
  standard : Option String
  modern : Option String
  commander : Option String
  deriving DecidableEq, Repr

structure RulingObj where
  oracle_id : String
  source : String
  comment : String
  deriving DecidableEq, Repr

/-- CardData (src/cache.ts lines 18-42).  The rulings and similar_cards
fields are attached only by the server handler and are not part of what the
client functions build, so they are omitted from the record the client
returns (the handler model carries them separately). -/
structure CardData where
  name : String
  mana_cost : Option String
  type_line : Option String
  oracle_text : Option String
  power : Option String
  toughness : Option String
  colors : Option (List String)
  legalities : CardLegalities
  set_name : Option String
  rarity : Option String
  rulings_uri : Option String
  image_uris : ImageUris
  cmc : Option Int
  keywords : Option (List String)
  deriving DecidableEq, Repr

structure SimilarCardData where
  name : String
  color_identity : Option (List String)
  cmc : Option Int
  type : Option String
  image_uris : Option ImageUris
  deriving DecidableEq, Repr

/-- CachedSimilarCards (src/cache.ts lines 44-47): the stored ISO timestamp
is modelled by its epochMilliseconds value. -/
structure CachedSimilarCards where
  cards : List SimilarCardData
  timestamp : Int
  deriving DecidableEq, Repr

/-! ### Upstream card JSON and the field mapping -/

/-- The subset of an upstream Scryfall card JSON object that the client
reads (every field access in the mapping blocks of getCardByName and
searchCards); each field may be absent. -/
structure UpstreamCard where
  name : String
  mana_cost : Option String
  type_line : Option String
  oracle_text : Option String
  power : Option String
  toughness : Option String
  colors : Option (List String)
  legalities : Option CardLegalities
  set_name : Option String
  rarity : Option String
  rulings_uri : Option String
  image_uris : Option ImageUris
  cmc : Option Int
  keywords : Option (List String)
  deriving DecidableEq, Repr

/-- The field extraction performed identically by getCardByName
(main_test.ts lines 208-230) and by searchCards (main_test.ts lines
312-334): keep the listed fields, project legalities to the three formats
standard / modern / commander, and project image_uris to small / normal
with optional chaining. -/
def mapUpstreamCard (d : UpstreamCard) : CardData :=
  { name := d.name
  , mana_cost := d.mana_cost
  , type_line := d.type_line
  , oracle_text := d.oracle_text
  , power := d.power
  , toughness := d.toughness
  , colors := d.colors
  , legalities :=
      { standard := d.legalities.bind (fun l => l.standard)
      , modern := d.legalities.bind (fun l => l.modern)
      , commander := d.legalities.bind (fun l => l.commander) }
  , set_name := d.set_name
  , rarity := d.rarity
  , rulings_uri := d.rulings_uri
  , image_uris :=
      { small := d.image_uris.bind (fun i => i.small)
      , normal := d.image_uris.bind (fun i => i.normal) }
  , cmc := d.cmc
  , keywords := d.keywords }

/-! ### ScryfallClient.getCardByName (main_test.ts lines 200-240) -/

/-- Result of one getCardByName call: the value returned (or the McpError
thrown), the fetcher state after the call, and the write-through performed
on the card cache (none when nothing was written). -/
structure GetCardResult where
  result : Except McpErr CardData
  fetcher : FetchLog
  cacheWrite : Option CardData

/-- ScryfallClient.getCardByName.  Inputs: the result of the cache lookup
getCachedCard(cardName) (an object is always truthy, so a present readable
entry short-circuits), the clock time at which the fetcher would run, the
outcome of the network fetch, and the fetcher state.  On a cache miss the
fetcher dispatches (updating its state), and a non-2xx status, a network
failure or a body parse failure is converted by the catch block into an
McpError; on success the mapped record is cached and returned. -/
def getCardByName (cardName : String) (cached : Option CardData) (start : Int)
    (out : FetchOutcome UpstreamCard) (st : FetchLog) : GetCardResult :=
  match cached with
  | some c => { result := .ok c, fetcher := st, cacheWrite := none }
  | none =>
    let st' := fetchStep st start
    match out with
    | .fetchError msg =>
        { result := .error
            { code := .internalError
            , message := "Failed to fetch card data for " ++ cardName ++ ": " ++ msg }
        , fetcher := st', cacheWrite := none }
    | .response status body =>
      if responseOk status then
        match body with
        | .error msg =>
            { result := .error
                { code := .internalError
                , message := "Failed to fetch card data for " ++ cardName ++ ": " ++ msg }
            , fetcher := st', cacheWrite := none }
        | .ok u =>
            let cd := mapUpstreamCard u
            { result := .ok cd, fetcher := st', cacheWrite := some cd }
      else
        { result := .error
            { code := .internalError
            , message := "Failed to fetch card data for " ++ cardName
                ++ ": Scryfall API error: " ++ toString status }
        , fetcher := st', cacheWrite := none }

/-! ### Similar-cards cache read (src/cache.ts lines 77-99) -/

def msPerDay : Int := 1000 * 60 * 60 * 24

/-- getCachedSimilarCards, given the content found at the cache path (none
when the file does not exist, an Except.error when reading or parsing it
throws) and the current epochMilliseconds.  The source compares
diffInMs / 86400000 < 365 in exact arithmetic, which is equivalent to
diffInMs < 365 * 86400000; the embedding uses the integer form. -/
def getCachedSimilarCards (file : Option (Except String CachedSimilarCards))
    (now : Int) : Option (List SimilarCardData) :=
  match file with
  | none => none
  | some (.error _) => none
  | some (.ok env) =>
      if now - env.timestamp < 365 * msPerDay then some env.cards else none

/-! ### ScryfallClient.getRulings (main_test.ts lines 242-255) -/

/-- The ruling-list JSON body: the data field may be absent or not an array,
in which case the call data.data.map throws and the catch returns []. -/
structure RulingsPayload where
  data : Option (List RulingObj)

/-- ScryfallClient.getRulings: every failure path (network failure, non-2xx
status, body parse failure, missing data array) falls into the catch block
and yields []; on success each entry is projected to its
(oracle_id, source, comment) triple. -/
def getRulings (out : FetchOutcome RulingsPayload) : List RulingObj :=
  match out with
  | .fetchError _ => []
  | .response status body =>
    if responseOk status then
      match body with
      | .error _ => []
      | .ok p =>
        match p.data with
        | none => []
        | some l => l.map (fun o =>
            { oracle_id := o.oracle_id, source := o.source, comment := o.comment })
    else []

/-! ### ScryfallClient.getSimilarCards (main_test.ts lines 257-292) -/

/-- The subset of an EDHREC similar-card entry that the client reads.  The
name truthiness test of the source (if card and card.name) means a present
empty-string name is also skipped. -/
structure EdhrecCard where
  name : String
  color_identity : Option (List String)
  cmc : Option Int
  primary_type : Option String
  type : Option String
  image_uris : Option (List ImageUris)
  deriving DecidableEq, Repr

/-- The EDHREC page body: similar may be absent or not an array (then the
Array.isArray guard skips the loop); an array may contain null entries
(the card truthiness test skips them). -/
structure EdhrecPayload where
  similar : Option (List (Option EdhrecCard))

/-- The per-entry projection of the getSimilarCards loop body. -/
def mapEdhrecCard (c : EdhrecCard) : SimilarCardData :=
  { name := c.name
  , color_identity := c.color_identity
  , cmc := c.cmc
  , type := jsOrStr c.primary_type c.type
  , image_uris :=
      match c.image_uris with
      | some (i :: _) => some { small := i.small, normal := i.normal }
      | _ => none }

/-- ScryfallClient.getSimilarCards.  Inputs: the cache lookup result and the
fetch outcome.  Returns the list handed back to the caller together with
the cache write performed (none when nothing was written).  A cache hit
returns the cached list without fetching; a non-2xx status returns []
without caching; a network failure or parse failure falls into the catch
block and returns []; on success the kept entries (present, truthy name)
are mapped and the result, even if empty, is written to the cache. -/
def getSimilarCards (cached : Option (List SimilarCardData))
    (out : FetchOutcome EdhrecPayload) :
    List SimilarCardData × Option (List SimilarCardData) :=
  match cached with
  | some cs => (cs, none)
  | none =>
    match out with
    | .fetchError _ => ([], none)
    | .response status body =>
      if responseOk status then
        match body with
        | .error _ => ([], none)
        | .ok p =>
          let sims :=
            match p.similar with
            | some entries =>
                entries.filterMap (fun e =>
                  match e with
                  | some c => if c.name = "" then none else some (mapEdhrecCard c)
                  | none => none)
            | none => []
          (sims, some sims)
      else ([], none)

/-! ### ScryfallClient.searchCards (main_test.ts lines 294-349) -/

/-- SearchCardsArgs (main_test.ts lines 181-187).  The query, unique, order
and include_extras fields only shape the request URL and do not affect the
claims about the response handling; they are carried for fidelity. -/
structure SearchCardsArgs where
  query : String
  max_results : Option Int
  unique : Option String
  order : Option String
  include_extras : Bool

/-- SearchResult (main_test.ts lines 189-195). -/
structure SearchResult where
  object : String
  total_cards : Int
  has_more : Bool
  next_page : Option String
  data : List CardData
  deriving DecidableEq, Repr

/-- The search JSON body as the code reads it. -/
structure SearchPayload where
  object : String
  total_cards : Int
  has_more : Bool
  next_page : Option String
  data : List UpstreamCard

/-- ScryfallClient.searchCards response handling: a 404 status returns the
empty envelope without error; any other non-2xx status, a network failure
or a body parse failure is converted by the catch block into an McpError;
on success the upstream list is cut by slice(0, max_results or 25) and
each entry is mapped by the same projection as getCardByName. -/
def searchCards (args : SearchCardsArgs) (out : FetchOutcome SearchPayload) :
    Except McpErr SearchResult :=
  match out with
  | .fetchError msg =>
      .error { code := .internalError, message := "Failed to search cards: " ++ msg }
  | .response status body =>
    if responseOk status then
      match body with
      | .error msg =>
          .error { code := .internalError, message := "Failed to search cards: " ++ msg }
      | .ok p =>
          .ok { object := p.object
              , total_cards := p.total_cards
              , has_more := p.has_more
              , next_page := p.next_page
              , data := (jsSlice p.data (jsOrInt args.max_results 25)).map mapUpstreamCard }
    else
      if status = 404 then
        .ok { object := "list", total_cards := 0, has_more := false
            , next_page := none, data := [] }
      else
        .error { code := .internalError
               , message := "Failed to search cards: Scryfall API error: " ++ toString status }

/-- The length of the card list of a successful searchCards call. -/
def searchResultLen (e : Except McpErr SearchResult) : Option Nat :=
  match e with
  | .ok r => some r.data.length
  | .error _ => none

/-! ### Failure predicate for C4 -/

/-- An outcome on which the fetch-and-parse pipeline failed: the network
request was rejected, the HTTP status is not a success, or the body did not
parse. -/
def fetchFailed {α : Type} : FetchOutcome α → Bool
  | .fetchError _ => true
  | .response status body =>
      !(decide (responseOk status)) ||
        (match body with | .error _ => true | .ok _ => false)

/-! ### The similar-cards slug transform (src/cache.ts lines 78-79) -/

/-- The JS regular-expression class \s (the whitespace characters collapsed
by replace of \s+), by code point. -/
def isJsWhitespace (c : Char) : Bool :=
  c.toNat = 32 || (9 ≤ c.toNat && c.toNat ≤ 13) || c.toNat = 0xa0 ||
  c.toNat = 0x1680 || (0x2000 ≤ c.toNat && c.toNat ≤ 0x200a) ||
  c.toNat = 0x2028 || c.toNat = 0x2029 || c.toNat = 0x202f ||
  c.toNat = 0x205f || c.toNat = 0x3000 || c.toNat = 0xfeff

/-- String.prototype.toLowerCase, per code point (the simple lowercase
mapping on the Latin letters; other code points are left unchanged by this
model).  The idempotence argument relies only on the kept class
[a-z0-9-] being fixed by lowercasing, which holds for the full mapping. -/
def jsToLower (c : Char) : Char :=
  if 65 ≤ c.toNat ∧ c.toNat ≤ 90 then Char.ofNat (c.toNat + 32) else c

/-- The character class [a-z0-9-] kept by the final replace. -/
def isSlugChar (c : Char) : Bool :=
  (97 ≤ c.toNat && c.toNat ≤ 122) || (48 ≤ c.toNat && c.toNat ≤ 57) ||
  c.toNat = 45

/-- replace(/\s+/g, "-"): each maximal run of whitespace becomes a single
hyphen.  The inRun flag records whether the previous character belonged to
a whitespace run whose hyphen was already emitted. -/
def collapseWsAux : Bool → List Char → List Char
  | _, [] => []
  | inRun, c :: rest =>
    if isJsWhitespace c then
      if inRun then collapseWsAux true rest
      else '-' :: collapseWsAux true rest
    else c :: collapseWsAux false rest

/-- The slug transform of src/cache.ts lines 78-79 (also main_test.ts lines
261-262): lowercase, collapse whitespace runs to single hyphens, strip
everything outside [a-z0-9-]. -/
def slugChars (s : List Char) : List Char :=
  (collapseWsAux false (s.map jsToLower)).filter isSlugChar

def slug (s : String) : String := ⟨slugChars s.data⟩

/-! ### Cache file paths (src/cache.ts lines 55, 69, 80, 104)

File paths are modelled as lists of code points (Nat). -/

def strCodes (s : String) : List Nat := s.data.map Char.toNat

/-- The characters encodeURIComponent leaves unescaped:
A-Z a-z 0-9 - _ . ! ~ * apostrophe ( ). -/
def uriUnreserved (n : Nat) : Bool :=
  (65 ≤ n && n ≤ 90) || (97 ≤ n && n ≤ 122) || (48 ≤ n && n ≤ 57) ||
  n = 45 || n = 95 || n = 46 || n = 33 || n = 126 || n = 42 || n = 39 ||
  n = 40 || n = 41

/-- Uppercase hex digit of a value below 16, as a code point. -/
def hexDigitCode (d : Nat) : Nat := if d < 10 then 48 + d else 55 + d

/-- One percent-escaped byte: the code points of %XY. -/
def pctByte (b : Nat) : List Nat := [37, hexDigitCode (b / 16), hexDigitCode (b % 16)]

/-- The UTF-8 bytes of a Unicode scalar value. -/
def utf8Bytes (n : Nat) : List Nat :=
  if n < 0x80 then [n]
  else if n < 0x800 then [0xc0 + n / 0x40, 0x80 + n % 0x40]
  else if n < 0x10000 then
    [0xe0 + n / 0x1000, 0x80 + n / 0x40 % 0x40, 0x80 + n % 0x40]
  else
    [0xf0 + n / 0x40000, 0x80 + n / 0x1000 % 0x40, 0x80 + n / 0x40 % 0x40,
     0x80 + n % 0x40]

/-- encodeURIComponent on one character: unreserved characters pass through,
every other character is percent-escaped byte by byte. -/
def encodeChar (c : Char) : List Nat :=
  if uriUnreserved c.toNat then [c.toNat] else (utf8Bytes c.toNat).flatMap pctByte

/-- encodeURIComponent, as used for the card-cache key. -/
def encodeURIComponent (s : List Char) : List Nat := s.flatMap encodeChar

def isHexCode (n : Nat) : Bool := (48 ≤ n && n ≤ 57) || (65 ≤ n && n ≤ 70)

def hexVal (n : Nat) : Nat :=
  if 48 ≤ n && n ≤ 57 then n - 48 else if 65 ≤ n && n ≤ 70 then n - 55 else 16

/-- Reads one percent-escaped byte from the front of an encoded stream. -/
def readPctByte : List Nat → Option (Nat × List Nat)
  | 37 :: h1 :: h2 :: rest =>
      if isHexCode h1 && isHexCode h2 then some (hexVal h1 * 16 + hexVal h2, rest)
      else none
  | _ => none

/-- Recovers the first encoded character (as a scalar value) from the front
of an encodeURIComponent output, used to prove the encoding injective. -/
def decodeFirst : List Nat → Option (Nat × List Nat)
  | [] => none
  | x :: rest =>
    if x = 37 then
      match readPctByte (x :: rest) with
      | none => none
      | some (b0, r1) =>
        if b0 < 0x80 then some (b0, r1)
        else if b0 < 0xc0 then none
        else if b0 < 0xe0 then
          match readPctByte r1 with
          | some (b1, r2) => some ((b0 - 0xc0) * 0x40 + (b1 - 0x80), r2)
          | none => none
        else if b0 < 0xf0 then
          match readPctByte r1 with
          | some (b1, r2) =>
            match readPctByte r2 with
            | some (b2, r3) =>
                some ((b0 - 0xe0) * 0x1000 + (b1 - 0x80) * 0x40 + (b2 - 0x80), r3)
            | none => none
          | none => none
        else
          match readPctByte r1 with
          | some (b1, r2) =>
            match readPctByte r2 with
            | some (b2, r3) =>
              match readPctByte r3 with
              | some (b3, r4) =>
                  some ((b0 - 0xf0) * 0x40000 + (b1 - 0x80) * 0x1000 +
                        (b2 - 0x80) * 0x40 + (b3 - 0x80), r4)
              | none => none
            | none => none
          | none => none
    else some (x, rest)

def jsonSuffix : List Nat := strCodes ".json"

/-- The card-cache file path: join(CACHE_DIR, encodeURIComponent(name) + ".json")
(src/cache.ts line 55), with the cache root abstracted as a code-point list. -/
def cardCachePath (root : List Nat) (name : String) : List Nat :=
  root ++ (47 :: encodeURIComponent name.data) ++ jsonSuffix

/-- The similar-cards cache file path:
join(CACHE_DIR, "similar", slug(name) + ".json") (src/cache.ts line 80). -/
def simCachePath (root : List Nat) (name : String) : List Nat :=
  root ++ strCodes "/similar/" ++ strCodes (slug name) ++ jsonSuffix

/-- The similar-cards cache as a mapping from file paths to file contents
(none when the file does not exist; Except.error when reading or parsing
the file throws). -/
def SimStore : Type := List Nat → Option (Except String CachedSimilarCards)

/-- getCachedSimilarCards including the key derivation: read the file at the
slug-derived path. -/
def getCachedSimilarCardsAt (fs : SimStore) (root : List Nat) (name : String)
    (now : Int) : Option (List SimilarCardData) :=
  getCachedSimilarCards (fs (simCachePath root name)) now

/-- cacheSimilarCards (src/cache.ts lines 101-114): write a fresh envelope
at the slug-derived path. -/
def cacheSimilarCardsAt (fs : SimStore) (root : List Nat) (name : String)
    (cards : List SimilarCardData) (now : Int) : SimStore :=
  fun p => if p = simCachePath root name then some (.ok ⟨cards, now⟩) else fs p

/-! ### ArchidektClient.getDeck (src/archidekt_client.ts lines 58-144) -/

/-- The oracleCard object of a raw Archidekt card entry; getDeck reads only
its name (the remaining interface fields are consumed only by code that is
commented out). -/
structure OracleCard where
  name : String
  deriving DecidableEq, Repr

structure ArchidektCardInner where
  oracleCard : OracleCard
  deriving DecidableEq, Repr

/-- A raw per-card entry of the deck JSON. -/
structure ArchidektCard where
  card : ArchidektCardInner
  quantity : Int
  categories : List String
  deriving DecidableEq, Repr

/-- An entry of the deck-level category list. -/
structure DeckCategory where
  id : Int
  name : String
  includedInDeck : Bool
  deriving DecidableEq, Repr

/-- The category shape of the output DeckData. -/
structure DeckCardCategory where
  categoryName : String
  includedInDeck : Bool
  deriving DecidableEq, Repr

/-- An element of the output cards array of DeckData. -/
structure DeckCardEntry where
  card : CardData
  quantity : Int
  categories : List DeckCardCategory
  deriving DecidableEq, Repr

/-- Insertion-order deduplication with an accumulator of already-seen names:
the semantics of new Set(cardNames) iterated in insertion order. -/
def dedupFirstAux (seen : List String) : List String → List String
  | [] => []
  | x :: xs =>
      if x ∈ seen then dedupFirstAux seen xs
      else x :: dedupFirstAux (x :: seen) xs

/-- [...new Set(l)] (src/archidekt_client.ts line 72). -/
def dedupFirst (l : List String) : List String := dedupFirstAux [] l

def deckCardNames (rawCards : List ArchidektCard) : List String :=
  rawCards.map (fun c => c.card.oracleCard.name)

/-- The sequence of names getDeck passes to scryfallClient.getCardByName,
one call per element, in order (src/archidekt_client.ts lines 71-75, 97). -/
def deckResolutionNames (rawCards : List ArchidektCard) : List String :=
  dedupFirst (deckCardNames rawCards)

/-- Resolution of one category name against the deck-level category list,
with the sentinel fallback (src/archidekt_client.ts line 103). -/
def resolveCategory (categoryList : List DeckCategory) (categoryName : String) :
    DeckCategory :=
  match categoryList.find? (fun c => c.name = categoryName) with
  | some c => c
  | none => { id := 0, name := "Unknown Category", includedInDeck := true }

def mkDeckCategories (categoryList : List DeckCategory) (names : List String) :
    List DeckCardCategory :=
  (names.map (resolveCategory categoryList)).map
    (fun c => { categoryName := c.name, includedInDeck := c.includedInDeck })

/-- The body of the getDeck per-name loop (src/archidekt_client.ts lines
75-107): find the first raw entry whose oracleCard name matches, resolve
the card through the Scryfall client, attach quantity (JS || 1 default) and
the resolved categories (JS || [] when the find returned undefined). -/
def mkDeckEntry (rawCards : List ArchidektCard) (categoryList : List DeckCategory)
    (resolve : String → CardData) (n : String) : DeckCardEntry :=
  match rawCards.find? (fun c => c.card.oracleCard.name = n) with
  | some ac =>
      { card := resolve n
      , quantity := jsOrInt (some ac.quantity) 1
      , categories := mkDeckCategories categoryList ac.categories }
  | none => { card := resolve n, quantity := 1, categories := [] }

/-- The cards array getDeck builds: one entry per deduplicated name, in
first-occurrence order. -/
def getDeckCards (rawCards : List ArchidektCard) (categoryList : List DeckCategory)
    (resolve : String → CardData) : List DeckCardEntry :=
  (deckResolutionNames rawCards).map (mkDeckEntry rawCards categoryList resolve)

/-! ### ScryfallServer.handleGetCardData validation (src/server.ts 145-161) -/

inductive JsonValue where
  | null
  | bool (b : Bool)
  | num (n : Int)
  | str (s : String)
  | arr (elems : List JsonValue)
  | obj (fields : List (String × JsonValue))

/-- JS truthiness of a JSON value. -/
def jsTruthy : JsonValue → Bool
  | .null => false
  | .bool b => b
  | .num n => decide (n ≠ 0)
  | .str s => decide (s ≠ "")
  | .arr _ => true
  | .obj _ => true

/-- The parameter validation and lookup dispatch of handleGetCardData
(src/server.ts lines 145-161): reject with InvalidParams when card_names is
absent, falsy, not an array, or of length zero; otherwise accept, and every
element of the array (whatever its type or content) is passed on to
getCardByName.  The returned list is the sequence of lookup arguments. -/
def handleGetCardDataNames (cardNames : Option JsonValue) :
    Except McpErr (List JsonValue) :=
  match cardNames with
  | none => .error { code := .invalidParams
                   , message := "card_names must be a non-empty array of strings" }
  | some v =>
    if jsTruthy v = false then
      .error { code := .invalidParams
             , message := "card_names must be a non-empty array of strings" }
    else
      match v with
      | .arr l =>
          if l.length = 0 then
            .error { code := .invalidParams
                   , message := "card_names must be a non-empty array of strings" }
          else .ok l
      | _ => .error { code := .invalidParams
                    , message := "card_names must be a non-empty array of strings" }

/-- A concrete upstream card used by concrete evaluations. -/
def blankUpstreamCard : UpstreamCard :=
  { name := "c", mana_cost := none, type_line := none, oracle_text := none
  , power := none, toughness := none, colors := none, legalities := none
  , set_name := none, rarity := none, rulings_uri := none, image_uris := none
  , cmc := none, keywords := none }

/-- A concrete card record used by concrete evaluations. -/
def blankCard : CardData :=
  { name := "X", mana_cost := none, type_line := none, oracle_text := none
  , power := none, toughness := none, colors := none
  , legalities := { standard := none, modern := none, commander := none }
  , set_name := none, rarity := none, rulings_uri := none
  , image_uris := { small := none, normal := none }
  , cmc := none, keywords := none }

/-- A concrete raw deck with a duplicated card name, used by concrete
evaluations: the name A appears at indices 0 and 2 with different quantity
and category data. -/
def sampleDeckRaw : List ArchidektCard :=
  [ { card := { oracleCard := { name := "A" } }, quantity := 2, categories := ["X"] }
  , { card := { oracleCard := { name := "B" } }, quantity := 3, categories := [] }
  , { card := { oracleCard := { name := "A" } }, quantity := 5, categories := ["Y"] } ]

def sampleResolve : String → CardData := fun _ => blankCard

/-! ## Theorems -/

/-- Claim C1: for every card name whose card-cache entry is present and
readable, getCardByName returns the cached CardRecord, performs no cache
write, and does not invoke the network fetcher: the fetcher state,
including its last-dispatch timestamp and its dispatch count, is returned
unchanged. -/
theorem getCardByName_cache_hit (cardName : String) (c : CardData) (start : Int)
    (out : FetchOutcome UpstreamCard) (st : FetchLog) :
    (getCardByName cardName (some c) start out st).result = .ok c ∧
    (getCardByName cardName (some c) start out st).fetcher = st ∧
    (getCardByName cardName (some c) start out st).cacheWrite = none :=
  ⟨rfl, rfl, rfl⟩

/-- Claim C3: on an upstream non-success response, searchCards returns the
explicit empty envelope when the status is 404, raising no error, and fails
with an upstream-error McpError on every other non-success status. -/
theorem searchCards_status_dispatch (args : SearchCardsArgs) (status : Nat)
    (body : Except String SearchPayload) (h : ¬ responseOk status) :
    (status = 404 → searchCards args (.response status body) =
      .ok { object := "list", total_cards := 0, has_more := false
          , next_page := none, data := [] }) ∧
    (status ≠ 404 → searchCards args (.response status body) =
      .error { code := .internalError
             , message := "Failed to search cards: Scryfall API error: "
                 ++ toString status }) := by
  constructor
  · intro h4
    subst h4
    simp only [searchCards]
    rw [if_neg h]
    simp
  · intro h4
    simp only [searchCards]
    rw [if_neg h, if_neg h4]

theorem searchCards_status_dispatch_witness :
    ¬ responseOk 404 ∧ ¬ responseOk 500 ∧
    searchCards { query := "q", max_results := none, unique := none
                , order := none, include_extras := false }
        (.response 404 (.error "x")) =
      .ok { object := "list", total_cards := 0, has_more := false
          , next_page := none, data := [] } ∧
    searchCards { query := "q", max_results := none, unique := none
                , order := none, include_extras := false }
        (.response 500 (.error "x")) =
      .error { code := .internalError
             , message := "Failed to search cards: Scryfall API error: "
                 ++ toString 500 } :=
  ⟨by decide, by decide,
   (searchCards_status_dispatch _ 404 _ (by decide)).1 rfl,
   (searchCards_status_dispatch _ 500 _ (by decide)).2 (by decide)⟩

/-- Claim C5: a similar-cards cache envelope is treated as present exactly
while now - timestamp is below 365 days: an envelope written more than 365
days before the read yields absent, one younger than 365 days yields its
stored card list. -/
theorem getCachedSimilarCards_ttl (cards : List SimilarCardData) (ts now : Int) :
    (365 * msPerDay < now - ts →
      getCachedSimilarCards (some (.ok ⟨cards, ts⟩)) now = none) ∧
    (now - ts < 365 * msPerDay →
      getCachedSimilarCards (some (.ok ⟨cards, ts⟩)) now = some cards) := by
  constructor
  · intro h
    simp only [getCachedSimilarCards]
    rw [if_neg (by omega)]
  · intro h
    simp only [getCachedSimilarCards]
    rw [if_pos h]

theorem getCachedSimilarCards_ttl_witness :
    365 * msPerDay < 366 * msPerDay - 0 ∧ 364 * msPerDay - 0 < 365 * msPerDay ∧
    getCachedSimilarCards (some (.ok ⟨[], 0⟩)) (366 * msPerDay) = none ∧
    getCachedSimilarCards (some (.ok ⟨[], 0⟩)) (364 * msPerDay) = some [] :=
  ⟨by decide, by decide,
   (getCachedSimilarCards_ttl [] 0 (366 * msPerDay)).1 (by decide),
   (getCachedSimilarCards_ttl [] 0 (364 * msPerDay)).2 (by decide)⟩

/-- Claim C4: getRulings and getSimilarCards never propagate a failure: on
a network failure, a non-success HTTP status, a body parse failure, or a
missing ruling array, each returns the empty sequence. -/
theorem enrichment_soft_fail :
    (∀ out : FetchOutcome RulingsPayload, fetchFailed out = true → getRulings out = []) ∧
    (∀ (status : Nat) (p : RulingsPayload), p.data = none →
      getRulings (.response status (.ok p)) = []) ∧
    (∀ out : FetchOutcome EdhrecPayload, fetchFailed out = true →
      (getSimilarCards none out).1 = []) := by
  refine ⟨?_, ?_, ?_⟩
  · intro out hf
    cases out with
    | fetchError m => rfl
    | response status body =>
      cases body with
      | error m =>
        simp only [getRulings]
        split <;> rfl
      | ok p =>
        have hok : ¬ responseOk status := by
          simp only [fetchFailed, Bool.or_eq_true, Bool.not_eq_true',
            decide_eq_false_iff_not] at hf
          rcases hf with hf | hf
          · exact hf
          · exact absurd hf (by simp)
        simp only [getRulings]
        rw [if_neg hok]
  · intro status p hp
    simp only [getRulings, hp]
    split <;> rfl
  · intro out hf
    cases out with
    | fetchError m => rfl
    | response status body =>
      cases body with
      | error m =>
        simp only [getSimilarCards]
        split <;> rfl
      | ok p =>
        have hok : ¬ responseOk status := by
          simp only [fetchFailed, Bool.or_eq_true, Bool.not_eq_true',
            decide_eq_false_iff_not] at hf
          rcases hf with hf | hf
          · exact hf
          · exact absurd hf (by simp)
        simp only [getSimilarCards]
        rw [if_neg hok]

theorem enrichment_soft_fail_witness :
    fetchFailed (FetchOutcome.response 500 (Except.ok ({ data := some [] } : RulingsPayload))) = true ∧
    getRulings (.response 500 (.ok { data := some [] })) = [] ∧
    getRulings (.response 200 (.ok ({ data := none } : RulingsPayload))) = [] ∧
    fetchFailed (FetchOutcome.fetchError (α := EdhrecPayload) "boom") = true ∧
    (getSimilarCards none (.fetchError "boom")).1 = [] :=
  ⟨rfl,
   enrichment_soft_fail.1 _ rfl,
   enrichment_soft_fail.2.1 200 { data := none } rfl,
   rfl,
   enrichment_soft_fail.2.2 _ rfl⟩

/-- Claim C10: the get_card_data parameter validation checks only that
card_names is a non-empty array: any non-empty array of JSON values is
accepted, whatever its elements (empty strings, numbers, and so on), and
every element is passed on as a card lookup argument. -/
theorem handleGetCardData_validation (l : List JsonValue) (h : l ≠ []) :
    handleGetCardDataNames (some (JsonValue.arr l)) = .ok l := by
  simp only [handleGetCardDataNames, jsTruthy]
  rw [if_neg (by simp)]
  rw [if_neg (by simpa using h)]

theorem handleGetCardData_validation_witness :
    ([JsonValue.str "", JsonValue.num 7] ≠ []) ∧
    handleGetCardDataNames (some (JsonValue.arr [JsonValue.str "", JsonValue.num 7])) =
      .ok [JsonValue.str "", JsonValue.num 7] :=
  ⟨List.cons_ne_nil _ _, handleGetCardData_validation _ (List.cons_ne_nil _ _)⟩

/-- Claim C7 (failing execution): two concurrent in-flight fetch calls can
both read the same stale lastFetchTime before either dispatches.  With the
last dispatch at time 1000, a call starting at 1010 and a second call
starting at 1012 (while the first is still suspended) both dispatch at
1075: the dispatch-start separation is 0 ms, below the 75 ms floor. -/
theorem rateLimiter_concurrent_dispatch :
    twoCallDispatches 1000 1010 1012 = (1075, 1075) ∧
    (twoCallDispatches 1000 1010 1012).2 - (twoCallDispatches 1000 1010 1012).1 <
      RATE_LIMIT_MS := by
  constructor <;> decide

/-- Supporting contrast for the rate limiter: when the second call starts
only after the first has dispatched (so it observes the updated
lastFetchTime), the two dispatch starts are separated by the full floor. -/
theorem fetchDispatch_sequential_gap (L0 s1 s2 : Int)
    (h : fetchDispatchTime s1 L0 ≤ s2) :
    (twoCallDispatches L0 s1 s2).1 + RATE_LIMIT_MS ≤ (twoCallDispatches L0 s1 s2).2 := by
  simp only [twoCallDispatches]
  rw [if_neg (by omega)]
  unfold fetchDispatchTime RATE_LIMIT_MS
  split <;> omega

theorem fetchDispatch_sequential_gap_witness :
    fetchDispatchTime 1010 1000 ≤ 1075 ∧
    (twoCallDispatches 1000 1010 1075).1 + RATE_LIMIT_MS ≤
      (twoCallDispatches 1000 1010 1075).2 :=
  ⟨by decide, fetchDispatch_sequential_gap 1000 1010 1075 (by decide)⟩

/-- Claim C2 (counterexample): the code imposes no hard ceiling of 175 and
no bound for a requested maximum of 0.  With max_results = 200 and 300
upstream entries, searchCards returns 200 entries, exceeding 175; with
max_results = 0 and 3 upstream entries it returns 3 entries (the JS
max_results || 25 default treats 0 as absent), exceeding the requested
maximum 0. -/
theorem searchCards_truncation_counterexample :
    searchResultLen (searchCards
        { query := "q", max_results := some 200, unique := none
        , order := none, include_extras := false }
        (.response 200 (.ok
          { object := "list", total_cards := 300, has_more := true
          , next_page := none, data := List.replicate 300 blankUpstreamCard }))) =
      some 200 ∧
    ¬ ((200 : Nat) ≤ 175) ∧
    searchResultLen (searchCards
        { query := "q", max_results := some 0, unique := none
        , order := none, include_extras := false }
        (.response 200 (.ok
          { object := "list", total_cards := 3, has_more := false
          , next_page := none, data := List.replicate 3 blankUpstreamCard }))) =
      some 3 ∧
    ¬ ((3 : Nat) ≤ 0) := by
  refine ⟨?_, by omega, ?_, by omega⟩
  · have hok : responseOk 200 := by constructor <;> omega
    simp only [searchCards, searchResultLen, if_pos hok]
    rw [show jsOrInt (some 200) 25 = 200 from rfl]
    rw [show jsSlice (List.replicate 300 blankUpstreamCard) 200 =
          (List.replicate 300 blankUpstreamCard).take (Int.toNat 200) from
        by rw [jsSlice, if_neg (by omega)]]
    simp only [List.length_map, List.length_take, List.length_replicate]
    decide
  · have hok : responseOk 200 := by constructor <;> omega
    simp only [searchCards, searchResultLen, if_pos hok]
    rw [show jsOrInt (some 0) 25 = 25 from rfl]
    rw [show jsSlice (List.replicate 3 blankUpstreamCard) 25 =
          (List.replicate 3 blankUpstreamCard).take (Int.toNat 25) from
        by rw [jsSlice, if_neg (by omega)]]
    simp only [List.length_map, List.length_take, List.length_replicate]
    decide

/-- Claim C2 (amended): on a successful response searchCards truncates
solely to the requested maximum: with max_results omitted the default 25
applies (25 entries at most, fewer when upstream has fewer), and with a
positive max_results exactly min max_results (upstream length) entries are
returned, so a positive requested maximum is never exceeded; there is no
separate 175 ceiling on top of the requested maximum. -/
theorem searchCards_truncation (args : SearchCardsArgs) (status : Nat)
    (p : SearchPayload) (hok : responseOk status) :
    (args.max_results = none →
      searchResultLen (searchCards args (.response status (.ok p))) =
        some (min 25 p.data.length)) ∧
    (∀ m : Int, args.max_results = some m → 0 < m →
      searchResultLen (searchCards args (.response status (.ok p))) =
        some (min m.toNat p.data.length)) := by
  constructor
  · intro hm
    simp [searchCards, searchResultLen, hok, jsOrInt, hm, jsSlice, List.length_take]
  · intro m hm hpos
    have hne : ¬ (m < 0) := by omega
    have hz : ¬ (m = 0) := by omega
    simp [searchCards, searchResultLen, hok, jsOrInt, hm, hz, jsSlice, hne,
      List.length_take]

theorem searchCards_truncation_witness :
    responseOk 200 ∧ (0 : Int) < 175 ∧
    searchResultLen (searchCards
        { query := "q", max_results := none, unique := none
        , order := none, include_extras := false }
        (.response 200 (.ok
          { object := "list", total_cards := 3, has_more := false
          , next_page := none, data := List.replicate 3 blankUpstreamCard }))) =
      some (min 25 (List.replicate 3 blankUpstreamCard).length) ∧
    searchResultLen (searchCards
        { query := "q", max_results := some 175, unique := none
        , order := none, include_extras := false }
        (.response 200 (.ok
          { object := "list", total_cards := 500, has_more := true
          , next_page := none, data := List.replicate 500 blankUpstreamCard }))) =
      some (min (Int.toNat 175) (List.replicate 500 blankUpstreamCard).length) :=
  ⟨by decide, by decide,
   (searchCards_truncation _ 200 _ (by decide)).1 rfl,
   (searchCards_truncation _ 200 _ (by decide)).2 175 rfl (by decide)⟩

/-- A character of the kept class [a-z0-9-] is fixed by lowercasing. -/
theorem jsToLower_slugChar {c : Char} (h : isSlugChar c = true) : jsToLower c = c := by
  simp only [isSlugChar, Bool.or_eq_true, Bool.and_eq_true, decide_eq_true_eq] at h
  unfold jsToLower
  rw [if_neg (by omega)]

/-- A character of the kept class [a-z0-9-] is not whitespace. -/
theorem slugChar_not_ws {c : Char} (h : isSlugChar c = true) :
    isJsWhitespace c = false := by
  simp only [isSlugChar, Bool.or_eq_true, Bool.and_eq_true, decide_eq_true_eq] at h
  cases hw : isJsWhitespace c with
  | false => rfl
  | true =>
    exfalso
    simp only [isJsWhitespace, Bool.or_eq_true, Bool.and_eq_true,
      decide_eq_true_eq] at hw
    omega

/-- Whitespace collapsing is the identity on a whitespace-free list. -/
theorem collapseWsAux_id (b : Bool) (l : List Char)
    (h : ∀ c ∈ l, isJsWhitespace c = false) : collapseWsAux b l = l := by
  induction l generalizing b with
  | nil => rfl
  | cons c rest ih =>
    have hc := h c (List.mem_cons_self c rest)
    have ih2 := ih false (fun x hx => h x (List.mem_cons_of_mem _ hx))
    simp [collapseWsAux, hc, ih2]

/-- Mapping a function that fixes every member is the identity. -/
theorem map_id_of_fixed {l : List Char} {f : Char → Char}
    (h : ∀ c ∈ l, f c = c) : l.map f = l := by
  induction l with
  | nil => rfl
  | cons c t ih =>
    simp only [List.map_cons, h c (List.mem_cons_self c t)]
    rw [ih (fun x hx => h x (List.mem_cons_of_mem _ hx))]

theorem slugChars_idem (s : List Char) : slugChars (slugChars s) = slugChars s := by
  have hmem : ∀ c ∈ slugChars s, isSlugChar c = true :=
    fun c hc => (List.mem_filter.mp hc).2
  show ((slugChars s).map jsToLower |> collapseWsAux false).filter isSlugChar
      = slugChars s
  rw [map_id_of_fixed (fun c hc => jsToLower_slugChar (hmem c hc)),
    collapseWsAux_id false _ (fun c hc => slugChar_not_ws (hmem c hc)),
    List.filter_eq_self.mpr hmem]

/-- Claim C6: the slug transform is total and idempotent, and sends
"Omnath, Locus of Rage" to "omnath-locus-of-rage". -/
theorem slug_total_idempotent :
    (∀ x : String, slug (slug x) = slug x) ∧
    slug "Omnath, Locus of Rage" = "omnath-locus-of-rage" := by
  constructor
  · intro x
    exact congrArg String.mk (slugChars_idem x.data)
  · decide

/-- Membership in the seen-accumulator deduplication. -/
theorem mem_dedupFirstAux (x : String) : ∀ (l seen : List String),
    x ∈ dedupFirstAux seen l ↔ (x ∈ l ∧ x ∉ seen)
  | [], seen => by simp [dedupFirstAux]
  | a :: t, seen => by
    by_cases ha : a ∈ seen
    · rw [show dedupFirstAux seen (a :: t) = dedupFirstAux seen t from by
          simp [dedupFirstAux, ha]]
      rw [mem_dedupFirstAux x t seen]
      constructor
      · exact fun hp => ⟨List.mem_cons_of_mem _ hp.1, hp.2⟩
      · rintro ⟨h1, h2⟩
        rcases List.mem_cons.mp h1 with rfl | h1
        · exact absurd ha h2
        · exact ⟨h1, h2⟩
    · rw [show dedupFirstAux seen (a :: t) = a :: dedupFirstAux (a :: seen) t from by
          simp [dedupFirstAux, ha]]
      constructor
      · intro hx
        rcases List.mem_cons.mp hx with rfl | hx
        · exact ⟨List.mem_cons_self _ _, ha⟩
        · have hm := (mem_dedupFirstAux x t (a :: seen)).mp hx
          exact ⟨List.mem_cons_of_mem _ hm.1,
            fun hs => hm.2 (List.mem_cons_of_mem _ hs)⟩
      · rintro ⟨h1, h2⟩
        by_cases hxa : x = a
        · subst hxa; exact List.mem_cons_self _ _
        · rcases List.mem_cons.mp h1 with rfl | h1
          · exact absurd rfl hxa
          · exact List.mem_cons_of_mem _ ((mem_dedupFirstAux x t (a :: seen)).mpr
              ⟨h1, fun hc => (List.mem_cons.mp hc).elim hxa h2⟩)

/-- The deduplicated list has no duplicates. -/
theorem nodup_dedupFirstAux : ∀ (l seen : List String), (dedupFirstAux seen l).Nodup
  | [], _ => List.nodup_nil
  | a :: t, seen => by
    by_cases ha : a ∈ seen
    · rw [show dedupFirstAux seen (a :: t) = dedupFirstAux seen t from by
          simp [dedupFirstAux, ha]]
      exact nodup_dedupFirstAux t seen
    · rw [show dedupFirstAux seen (a :: t) = a :: dedupFirstAux (a :: seen) t from by
          simp [dedupFirstAux, ha]]
      rw [List.nodup_cons]
      refine ⟨fun hmem => ?_, nodup_dedupFirstAux t (a :: seen)⟩
      exact ((mem_dedupFirstAux a t (a :: seen)).mp hmem).2 (List.mem_cons_self _ _)

/-- The deduplicated list is ordered by the index of the first occurrence
in the original list. -/
theorem pairwise_indexOf_dedupFirstAux : ∀ (l seen : List String),
    (dedupFirstAux seen l).Pairwise (fun a b => l.indexOf a < l.indexOf b)
  | [], _ => List.Pairwise.nil
  | a :: t, seen => by
    by_cases ha : a ∈ seen
    · rw [show dedupFirstAux seen (a :: t) = dedupFirstAux seen t from by
          simp [dedupFirstAux, ha]]
      refine (pairwise_indexOf_dedupFirstAux t seen).imp_of_mem ?_
      intro x y hx hy hlt
      have hxa : x ≠ a := fun h =>
        ((mem_dedupFirstAux x t seen).mp hx).2 (h ▸ ha)
      have hya : y ≠ a := fun h =>
        ((mem_dedupFirstAux y t seen).mp hy).2 (h ▸ ha)
      rw [List.indexOf_cons_ne _ (Ne.symm hxa), List.indexOf_cons_ne _ (Ne.symm hya)]
      omega
    · rw [show dedupFirstAux seen (a :: t) = a :: dedupFirstAux (a :: seen) t from by
          simp [dedupFirstAux, ha]]
      rw [List.pairwise_cons]
      constructor
      · intro y hy
        have hya : y ≠ a := fun h =>
          ((mem_dedupFirstAux y t (a :: seen)).mp hy).2 (h ▸ List.mem_cons_self _ _)
        rw [List.indexOf_cons_self, List.indexOf_cons_ne _ (Ne.symm hya)]
        omega
      · refine (pairwise_indexOf_dedupFirstAux t (a :: seen)).imp_of_mem ?_
        intro x y hx hy hlt
        have hxa : x ≠ a := fun h =>
          ((mem_dedupFirstAux x t (a :: seen)).mp hx).2 (h ▸ List.mem_cons_self _ _)
        have hya : y ≠ a := fun h =>
          ((mem_dedupFirstAux y t (a :: seen)).mp hy).2 (h ▸ List.mem_cons_self _ _)
        rw [List.indexOf_cons_ne _ (Ne.symm hxa), List.indexOf_cons_ne _ (Ne.symm hya)]
        omega

/-- find? returns the element at the first index satisfying the predicate. -/
theorem find?_first {α : Type} (p : α → Bool) : ∀ (l : List α),
    (∃ x ∈ l, p x = true) →
    ∃ (i : Nat) (h : i < l.length), p (l.get ⟨i, h⟩) = true ∧
      (∀ j (hj : j < l.length), j < i → p (l.get ⟨j, hj⟩) = false) ∧
      l.find? p = some (l.get ⟨i, h⟩)
  | [], hex => by simp at hex
  | a :: t, hex => by
    by_cases hpa : p a = true
    · refine ⟨0, by simp, by simpa using hpa, ?_, ?_⟩
      · intro j hj hj0
        omega
      · simp [List.find?_cons, hpa]
    · have hpaf : p a = false := by simpa using hpa
      have hex2 : ∃ x ∈ t, p x = true := by
        rcases hex with ⟨x, hx, hpx⟩
        rcases List.mem_cons.mp hx with rfl | hx
        · exact absurd hpx hpa
        · exact ⟨x, hx, hpx⟩
      rcases find?_first p t hex2 with ⟨i, hi, h1, h2, h3⟩
      refine ⟨i + 1, by simpa using Nat.succ_lt_succ hi, by simpa using h1, ?_, ?_⟩
      · intro j hj hji
        cases j with
        | zero => simpa using hpaf
        | succ k =>
          have hk : k < t.length := by simpa using hj
          have := h2 k hk (by omega)
          simpa using this
      · simpa [List.find?_cons, hpaf] using h3

/-- Claim C8: getDeck resolves each referenced name through the card client
exactly once (the resolution sequence deckResolutionNames contains every
referenced name exactly once), its output follows the first-occurrence
order of the names, and the quantity and category data of each produced
entry are derived from the first raw entry whose oracleCard name matches
(quantity through the JS || 1 default, categories resolved against the
deck-level category list). -/
theorem getDeck_dedup (rawCards : List ArchidektCard)
    (categoryList : List DeckCategory) (resolve : String → CardData)
    (n : String) (hn : n ∈ deckCardNames rawCards) :
    (deckResolutionNames rawCards).count n = 1 ∧
    (deckResolutionNames rawCards).Pairwise
      (fun a b => (deckCardNames rawCards).indexOf a <
        (deckCardNames rawCards).indexOf b) ∧
    getDeckCards rawCards categoryList resolve =
      (deckResolutionNames rawCards).map (mkDeckEntry rawCards categoryList resolve) ∧
    ∃ (i : Nat) (h : i < rawCards.length),
      (rawCards.get ⟨i, h⟩).card.oracleCard.name = n ∧
      (∀ j (hj : j < rawCards.length), j < i →
        (rawCards.get ⟨j, hj⟩).card.oracleCard.name ≠ n) ∧
      mkDeckEntry rawCards categoryList resolve n =
        { card := resolve n
        , quantity := jsOrInt (some (rawCards.get ⟨i, h⟩).quantity) 1
        , categories := mkDeckCategories categoryList
            (rawCards.get ⟨i, h⟩).categories } := by
  have hmem : n ∈ deckResolutionNames rawCards :=
    (mem_dedupFirstAux n (deckCardNames rawCards) []).mpr ⟨hn, by simp⟩
  refine ⟨?_, pairwise_indexOf_dedupFirstAux _ _, rfl, ?_⟩
  · exact List.count_eq_one_of_mem (nodup_dedupFirstAux _ _) hmem
  · have hex : ∃ x ∈ rawCards, (decide (x.card.oracleCard.name = n)) = true := by
      rcases List.mem_map.mp hn with ⟨x, hx, hxe⟩
      exact ⟨x, hx, by simpa using hxe⟩
    rcases find?_first (fun c => decide (c.card.oracleCard.name = n)) rawCards hex
      with ⟨i, hi, h1, h2, h3⟩
    refine ⟨i, hi, by simpa using h1, ?_, ?_⟩
    · intro j hj hji
      have := h2 j hj hji
      simpa using this
    · simp only [mkDeckEntry, h3]

theorem getDeck_dedup_witness :
    ("A" ∈ deckCardNames sampleDeckRaw) ∧
    (deckResolutionNames sampleDeckRaw).count "A" = 1 ∧
    deckResolutionNames sampleDeckRaw = ["A", "B"] ∧
    mkDeckEntry sampleDeckRaw [] sampleResolve "A" =
      { card := blankCard, quantity := 2
      , categories := [{ categoryName := "Unknown Category", includedInDeck := true }] } :=
  ⟨by decide,
   (getDeck_dedup sampleDeckRaw [] sampleResolve "A" (by decide)).1,
   by decide,
   by decide⟩

/-- Every Unicode scalar value is below 0x110000. -/
theorem char_toNat_lt (c : Char) : c.toNat < 1114112 := by
  show c.val.toNat < 1114112
  rcases c.valid with h | h
  · exact Nat.lt_trans h (by norm_num)
  · exact h.2

theorem isHexCode_hexDigitCode (d : Nat) (h : d < 16) :
    isHexCode (hexDigitCode d) = true := by
  interval_cases d <;> decide

theorem hexVal_hexDigitCode (d : Nat) (h : d < 16) :
    hexVal (hexDigitCode d) = d := by
  interval_cases d <;> decide

/-- Reading back one percent-escaped byte from the front of a stream. -/
theorem readPctByte_round (b : Nat) (hb : b < 256) (r : List Nat) :
    readPctByte (37 :: hexDigitCode (b / 16) :: hexDigitCode (b % 16) :: r) =
      some (b, r) := by
  have h1 : b / 16 < 16 := by omega
  have h2 : b % 16 < 16 := by omega
  simp only [readPctByte]
  rw [if_pos (by rw [isHexCode_hexDigitCode _ h1, isHexCode_hexDigitCode _ h2]; rfl)]
  rw [hexVal_hexDigitCode _ h1, hexVal_hexDigitCode _ h2]
  have hb' : b / 16 * 16 + b % 16 = b := by omega
  rw [hb']

/-- Decoding inverts encodeChar at the front of any stream. -/
theorem decodeFirst_encodeChar (c : Char) (rest : List Nat) :
    decodeFirst (encodeChar c ++ rest) = some (c.toNat, rest) := by
  have hval : c.toNat < 1114112 := char_toNat_lt c
  by_cases hu : uriUnreserved c.toNat = true
  · have h37 : ¬ (c.toNat = 37) := by
      simp only [uriUnreserved, Bool.or_eq_true, Bool.and_eq_true,
        decide_eq_true_eq] at hu
      omega
    rw [show encodeChar c = [c.toNat] from by rw [encodeChar, if_pos hu]]
    show decodeFirst (c.toNat :: rest) = some (c.toNat, rest)
    simp only [decodeFirst]
    rw [if_neg h37]
  · rw [show encodeChar c = (utf8Bytes c.toNat).flatMap pctByte from by
        rw [encodeChar, if_neg hu]]
    by_cases c1 : c.toNat < 128
    · rw [show utf8Bytes c.toNat = [c.toNat] from by rw [utf8Bytes, if_pos c1]]
      have e0 := readPctByte_round c.toNat (by omega) rest
      show decodeFirst (37 :: hexDigitCode (c.toNat / 16) ::
        hexDigitCode (c.toNat % 16) :: rest) = some (c.toNat, rest)
      simp only [decodeFirst, e0]
      simp [c1]
    · by_cases c2 : c.toNat < 2048
      · rw [show utf8Bytes c.toNat = [192 + c.toNat / 64, 128 + c.toNat % 64] from by
            rw [utf8Bytes, if_neg c1, if_pos c2]]
        have e0 := readPctByte_round (192 + c.toNat / 64) (by omega)
          (37 :: hexDigitCode ((128 + c.toNat % 64) / 16) ::
            hexDigitCode ((128 + c.toNat % 64) % 16) :: rest)
        have e1 := readPctByte_round (128 + c.toNat % 64) (by omega) rest
        show decodeFirst (37 :: hexDigitCode ((192 + c.toNat / 64) / 16) ::
          hexDigitCode ((192 + c.toNat / 64) % 16) ::
          37 :: hexDigitCode ((128 + c.toNat % 64) / 16) ::
          hexDigitCode ((128 + c.toNat % 64) % 16) :: rest) = some (c.toNat, rest)
        have f1 : ¬ (192 + c.toNat / 64 < 128) := by omega
        have f2 : ¬ (192 + c.toNat / 64 < 192) := by omega
        have f3 : 192 + c.toNat / 64 < 224 := by omega
        simp only [decodeFirst, e0, e1]
        simp [f1, f2, f3]
        omega
      · by_cases c3 : c.toNat < 65536
        · rw [show utf8Bytes c.toNat =
              [224 + c.toNat / 4096, 128 + c.toNat / 64 % 64, 128 + c.toNat % 64] from by
              rw [utf8Bytes, if_neg c1, if_neg c2, if_pos c3]]
          have e0 := readPctByte_round (224 + c.toNat / 4096) (by omega)
            (37 :: hexDigitCode ((128 + c.toNat / 64 % 64) / 16) ::
              hexDigitCode ((128 + c.toNat / 64 % 64) % 16) ::
              37 :: hexDigitCode ((128 + c.toNat % 64) / 16) ::
              hexDigitCode ((128 + c.toNat % 64) % 16) :: rest)
          have e1 := readPctByte_round (128 + c.toNat / 64 % 64) (by omega)
            (37 :: hexDigitCode ((128 + c.toNat % 64) / 16) ::
              hexDigitCode ((128 + c.toNat % 64) % 16) :: rest)
          have e2 := readPctByte_round (128 + c.toNat % 64) (by omega) rest
          show decodeFirst (37 :: hexDigitCode ((224 + c.toNat / 4096) / 16) ::
            hexDigitCode ((224 + c.toNat / 4096) % 16) ::
            37 :: hexDigitCode ((128 + c.toNat / 64 % 64) / 16) ::
            hexDigitCode ((128 + c.toNat / 64 % 64) % 16) ::
            37 :: hexDigitCode ((128 + c.toNat % 64) / 16) ::
            hexDigitCode ((128 + c.toNat % 64) % 16) :: rest) = some (c.toNat, rest)
          have f1 : ¬ (224 + c.toNat / 4096 < 128) := by omega
          have f2 : ¬ (224 + c.toNat / 4096 < 192) := by omega
          have f3 : ¬ (224 + c.toNat / 4096 < 224) := by omega
          have f4 : 224 + c.toNat / 4096 < 240 := by omega
          simp only [decodeFirst, e0, e1, e2]
          simp [f1, f2, f3, f4]
          omega
        · rw [show utf8Bytes c.toNat =
              [240 + c.toNat / 262144, 128 + c.toNat / 4096 % 64,
               128 + c.toNat / 64 % 64, 128 + c.toNat % 64] from by
              rw [utf8Bytes, if_neg c1, if_neg c2, if_neg c3]]
          have e0 := readPctByte_round (240 + c.toNat / 262144) (by omega)
            (37 :: hexDigitCode ((128 + c.toNat / 4096 % 64) / 16) ::
              hexDigitCode ((128 + c.toNat / 4096 % 64) % 16) ::
              37 :: hexDigitCode ((128 + c.toNat / 64 % 64) / 16) ::
              hexDigitCode ((128 + c.toNat / 64 % 64) % 16) ::
              37 :: hexDigitCode ((128 + c.toNat % 64) / 16) ::
              hexDigitCode ((128 + c.toNat % 64) % 16) :: rest)
          have e1 := readPctByte_round (128 + c.toNat / 4096 % 64) (by omega)
            (37 :: hexDigitCode ((128 + c.toNat / 64 % 64) / 16) ::
              hexDigitCode ((128 + c.toNat / 64 % 64) % 16) ::
              37 :: hexDigitCode ((128 + c.toNat % 64) / 16) ::
              hexDigitCode ((128 + c.toNat % 64) % 16) :: rest)
          have e2 := readPctByte_round (128 + c.toNat / 64 % 64) (by omega)
            (37 :: hexDigitCode ((128 + c.toNat % 64) / 16) ::
              hexDigitCode ((128 + c.toNat % 64) % 16) :: rest)
          have e3 := readPctByte_round (128 + c.toNat % 64) (by omega) rest
          show decodeFirst (37 :: hexDigitCode ((240 + c.toNat / 262144) / 16) ::
            hexDigitCode ((240 + c.toNat / 262144) % 16) ::
            37 :: hexDigitCode ((128 + c.toNat / 4096 % 64) / 16) ::
            hexDigitCode ((128 + c.toNat / 4096 % 64) % 16) ::
            37 :: hexDigitCode ((128 + c.toNat / 64 % 64) / 16) ::
            hexDigitCode ((128 + c.toNat / 64 % 64) % 16) ::
            37 :: hexDigitCode ((128 + c.toNat % 64) / 16) ::
            hexDigitCode ((128 + c.toNat % 64) % 16) :: rest) = some (c.toNat, rest)
          have f1 : ¬ (240 + c.toNat / 262144 < 128) := by omega
          have f2 : ¬ (240 + c.toNat / 262144 < 192) := by omega
          have f3 : ¬ (240 + c.toNat / 262144 < 224) := by omega
          have f4 : ¬ (240 + c.toNat / 262144 < 240) := by omega
          simp only [decodeFirst, e0, e1, e2, e3]
          simp [f1, f2, f3, f4]
          omega

/-- encodeURIComponent is injective: distinct character lists have distinct
encodings. -/
theorem encodeURIComponent_injective : ∀ l1 l2 : List Char,
    encodeURIComponent l1 = encodeURIComponent l2 → l1 = l2
  | [], [], _ => rfl
  | [], c :: t, h => by
    exfalso
    have h2 := decodeFirst_encodeChar c (encodeURIComponent t)
    rw [show encodeURIComponent (c :: t) =
        encodeChar c ++ encodeURIComponent t from rfl] at h
    rw [← h] at h2
    exact Option.noConfusion (h2.symm.trans (rfl : decodeFirst [] = none)).symm
  | c :: t, [], h => by
    exfalso
    have h2 := decodeFirst_encodeChar c (encodeURIComponent t)
    rw [show encodeURIComponent (c :: t) =
        encodeChar c ++ encodeURIComponent t from rfl] at h
    rw [h] at h2
    exact Option.noConfusion (h2.symm.trans (rfl : decodeFirst [] = none)).symm
  | c1 :: t1, c2 :: t2, h => by
    have h1 := decodeFirst_encodeChar c1 (encodeURIComponent t1)
    have h2 := decodeFirst_encodeChar c2 (encodeURIComponent t2)
    rw [show encodeURIComponent (c1 :: t1) =
        encodeChar c1 ++ encodeURIComponent t1 from rfl,
      show encodeURIComponent (c2 :: t2) =
        encodeChar c2 ++ encodeURIComponent t2 from rfl] at h
    rw [h] at h1
    rw [h2] at h1
    have h3 := Option.some.inj h1
    have hc : c1.toNat = c2.toNat := congrArg Prod.fst h3.symm
    have ht : encodeURIComponent t1 = encodeURIComponent t2 := congrArg Prod.snd h3.symm
    have hcc : c1 = c2 := by
      have hv : c1.val = c2.val := by
        have h1' : c1.val.toNat = c2.val.toNat := hc
        exact UInt32.ext (by exact_mod_cast h1')
      exact Char.eq_of_val_eq hv
    rw [hcc, encodeURIComponent_injective t1 t2 ht]

/-- Claim C9: the similar-cards cache key is not injective: the distinct
names Jace! and jace share one slug, hence one cache file, and a
similar-cards read for one name returns what was cached for the other; the
card cache percent-encoded key, by contrast, maps distinct names to
distinct files. -/
theorem cacheKeys_collision_vs_injective :
    (("Jace!" : String) ≠ "jace" ∧ slug "Jace!" = slug "jace" ∧
      ∀ root : List Nat, simCachePath root "Jace!" = simCachePath root "jace") ∧
    (∀ (root : List Nat) (fs : SimStore) (cards : List SimilarCardData) (now : Int),
      getCachedSimilarCardsAt (cacheSimilarCardsAt fs root "Jace!" cards now)
        root "jace" now = some cards) ∧
    (∀ (root : List Nat) (n1 n2 : String), n1 ≠ n2 →
      cardCachePath root n1 ≠ cardCachePath root n2) := by
  have hslug : slug "Jace!" = slug "jace" := by decide
  refine ⟨⟨by decide, hslug, fun root => by simp only [simCachePath, hslug]⟩, ?_, ?_⟩
  · intro root fs cards now
    have hpath : simCachePath root "jace" = simCachePath root "Jace!" := by
      simp only [simCachePath, hslug]
    simp only [getCachedSimilarCardsAt, cacheSimilarCardsAt]
    rw [if_pos hpath]
    simp only [getCachedSimilarCards]
    rw [if_pos (by show now - now < 365 * msPerDay; unfold msPerDay; omega)]
  · intro root n1 n2 hne heq
    apply hne
    have h1 : root ++ ((47 :: encodeURIComponent n1.data) ++ jsonSuffix) =
        root ++ ((47 :: encodeURIComponent n2.data) ++ jsonSuffix) := by
      simpa [cardCachePath, List.append_assoc] using heq
    have h2 := List.append_cancel_left h1
    have h3 : encodeURIComponent n1.data = encodeURIComponent n2.data := by
      have h4 : (47 :: encodeURIComponent n1.data) =
          47 :: encodeURIComponent n2.data := List.append_cancel_right h2
      injection h4
    exact String.ext (encodeURIComponent_injective _ _ h3)

theorem cacheKeys_collision_vs_injective_witness :
    (("a" : String) ≠ "b") ∧
    cardCachePath [] "a" ≠ cardCachePath [] "b" ∧
    getCachedSimilarCardsAt (cacheSimilarCardsAt (fun _ => none) [] "Jace!" [] 0)
      [] "jace" 0 = some [] :=
  ⟨by decide,
   cacheKeys_collision_vs_injective.2.2 [] "a" "b" (by decide),
   cacheKeys_collision_vs_injective.2.1 [] (fun _ => none) [] 0⟩
